import Mathlib

/-!
Verification of the `non_empty_continuous` crate: `NonEmptySlice<T>` (a thin
wrapper around `[T]`) and `NonEmptyVec<T>` (a wrapper around `Vec<T>`).

The backing `Vec<T>` / `[T]` contents are embedded as `List T`; a Rust
operation that can panic is embedded as an `Option`-returning function, where
`none` is the panic.  Capacity and allocation identity, which only a few
claims mention, get their own refined models further below
(`VecC` for capacity, `VecP`/`Alloc` for pointer identity).
-/

namespace NEC

/-- `NonEmptyVec<T>(pub(crate) Vec<T>)`: single-field wrapper around the
backing vector, embedded as the list of its elements. -/
structure NonEmptyVec (T : Type) where
  data : List T
  deriving Repr, DecidableEq

/-- `NonEmptyVec::new(item)`: `NonEmptyVec(vec![item])`. -/
def NonEmptyVec.new {T : Type} (item : T) : NonEmptyVec T :=
  ⟨[item]⟩

/-- `NonEmptyVec::try_from_vec(vec)`: `if vec.is_empty() { Err(vec) } else { Ok(NonEmptyVec(vec)) }`. -/
def NonEmptyVec.try_from_vec {T : Type} (vec : List T) :
    Except (List T) (NonEmptyVec T) :=
  if vec.isEmpty then .error vec else .ok ⟨vec⟩

/-- `impl From<NonEmptyVec<T>> for Vec<T>`: returns the inner vector `s.0`. -/
def NonEmptyVec.to_vec {T : Type} (v : NonEmptyVec T) : List T :=
  v.data

/-- `NonEmptySlice::try_from_slice(slice)`: `if slice.is_empty() { Err(slice) } else { Ok(..) }`.
A `&NonEmptySlice<T>` is a transparent view of the slice, so the success value
is embedded as the element list itself. -/
def NonEmptySlice.try_from_slice {T : Type} (slice : List T) :
    Except (List T) (List T) :=
  if slice.isEmpty then .error slice else .ok slice

/-- `NonEmptySlice::get_len(&self)`: the slice length as a `usize`. -/
def NonEmptySlice.get_len {T : Type} (s : List T) : Nat :=
  s.length

/-- `NonEmptySlice::has_just_1_element(&self)`: `self.get_len() == 1`. -/
def NonEmptySlice.has_just_1_element {T : Type} (s : List T) : Bool :=
  NonEmptySlice.get_len s == 1

/-- `Vec::pop` of the backing store: removes and returns the last element,
or returns `None` on an empty vector. -/
def Vec.pop {T : Type} (l : List T) : Option T × List T :=
  match l.getLast? with
  | none => (none, l)
  | some x => (some x, l.dropLast)

/-- `NonEmptyVec::try_pop(&mut self)`: `if self.has_just_1_element() { None } else { self.0.pop() }`.
Returned as (popped element, vector afterwards). -/
def NonEmptyVec.try_pop {T : Type} (v : NonEmptyVec T) :
    Option T × NonEmptyVec T :=
  if NonEmptySlice.has_just_1_element v.data then (none, v)
  else
    let r := Vec.pop v.data
    (r.1, ⟨r.2⟩)

/-- `Vec::remove(index)` of the backing store: panics (`none`) when
`index >= len`, otherwise removes and returns the element at `index`,
shifting the tail left. -/
def Vec.remove {T : Type} (l : List T) (index : Nat) : Option (T × List T) :=
  if h : index < l.length then some (l.get ⟨index, h⟩, l.eraseIdx index)
  else none

/-- `Vec::swap_remove(index)` of the backing store: panics (`none`) when
`index >= len`, otherwise returns the element at `index`, moves the last
element into its place and shortens the vector by one. -/
def Vec.swap_remove {T : Type} (l : List T) (index : Nat) :
    Option (T × List T) :=
  match l.getLast? with
  | none => none
  | some last =>
    if h : index < l.length then some (l.get ⟨index, h⟩, (l.set index last).dropLast)
    else none

/-- `NonEmptyVec::try_remove(&mut self, index)`:
`if self.has_just_1_element() { None } else { Some(self.0.remove(index)) }`.
The outer `Option` is the panic of the delegated `Vec::remove`. -/
def NonEmptyVec.try_remove {T : Type} (v : NonEmptyVec T) (index : Nat) :
    Option (Option T × NonEmptyVec T) :=
  if NonEmptySlice.has_just_1_element v.data then some (none, v)
  else
    match Vec.remove v.data index with
    | none => none
    | some (x, l) => some (some x, ⟨l⟩)

/-- `NonEmptyVec::try_swap_remove(&mut self, index)`:
`if self.has_just_1_element() { None } else { Some(self.0.swap_remove(index)) }`.
The outer `Option` is the panic of the delegated `Vec::swap_remove`. -/
def NonEmptyVec.try_swap_remove {T : Type} (v : NonEmptyVec T) (index : Nat) :
    Option (Option T × NonEmptyVec T) :=
  if NonEmptySlice.has_just_1_element v.data then some (none, v)
  else
    match Vec.swap_remove v.data index with
    | none => none
    | some (x, l) => some (some x, ⟨l⟩)

/-- One endpoint of a `RangeBounds<usize>` argument, mirroring
`std::ops::Bound<usize>`. -/
inductive Bound where
  | included (n : Nat)
  | excluded (n : Nat)
  | unbounded
  deriving Repr, DecidableEq

/-- A `RangeBounds<usize>` value, as its pair of `start_bound`/`end_bound`. -/
structure RangeB where
  lo : Bound
  hi : Bound
  deriving Repr, DecidableEq

/-- `RangeBounds::contains(&self, item)`: the start bound admits `item` and
the end bound admits `item`. -/
def RangeB.containsB (r : RangeB) (item : Nat) : Bool :=
  (match r.lo with
   | .included n => n ≤ item
   | .excluded n => n < item
   | .unbounded => true) &&
  (match r.hi with
   | .included n => item ≤ n
   | .excluded n => item < n
   | .unbounded => true)

/-- Resolution of a start bound to a first included index. -/
def Bound.resolveLo : Bound → Nat
  | .included n => n
  | .excluded n => n + 1
  | .unbounded => 0

/-- Resolution of an end bound to a first excluded index, given the length. -/
def Bound.resolveHi (b : Bound) (len : Nat) : Nat :=
  match b with
  | .included n => n + 1
  | .excluded n => n
  | .unbounded => len

/-- `std::slice::range(range, ..len)`, the resolution the backing store's
`drain`/`splice` perform: turns the bounds into a half-open index pair
`(start, end)`, panicking (`none`) when `start > end` or `end > len`. -/
def RangeB.resolve (r : RangeB) (len : Nat) : Option (Nat × Nat) :=
  if r.lo.resolveLo ≤ r.hi.resolveHi len ∧ r.hi.resolveHi len ≤ len then
    some (r.lo.resolveLo, r.hi.resolveHi len)
  else none

/-- `Vec::drain(range)` of the backing store, observed after the returned
iterator is dropped: panics (`none`) on an invalid range, otherwise yields
(the removed elements of `range`, the remaining vector). -/
def Vec.drain {T : Type} (l : List T) (range : RangeB) :
    Option (List T × List T) :=
  match range.resolve l.length with
  | none => none
  | some (s, e) => some ((l.drop s).take (e - s), l.take s ++ l.drop e)

/-- `NonEmptyVec::drain(&mut self, range)`:
`if range.contains(&0) && range.contains(&(self.len().get() - 1)) { None } else { Some(self.0.drain(range)) }`.
The outer `Option` is the panic of the delegated `Vec::drain`; the inner one
is the method's own absence signal.  Returned as (result, vector afterwards). -/
def NonEmptyVec.drain {T : Type} (v : NonEmptyVec T) (range : RangeB) :
    Option (Option (List T) × NonEmptyVec T) :=
  if range.containsB 0 && range.containsB (v.data.length - 1) then
    some (none, v)
  else
    match Vec.drain v.data range with
    | none => none
    | some (removed, rest) => some (some removed, ⟨rest⟩)

/-- `Vec::splice(range, replace_with)` of the backing store, observed after
the returned iterator is dropped: panics (`none`) on an invalid range,
otherwise yields (the removed elements of `range`, the vector with the
removed elements replaced by `replace_with`). -/
def Vec.splice {T : Type} (l : List T) (range : RangeB) (replace_with : List T) :
    Option (List T × List T) :=
  match range.resolve l.length with
  | none => none
  | some (s, e) =>
    some ((l.drop s).take (e - s), l.take s ++ replace_with ++ l.drop e)

/-- `NonEmptyVec::splice(&mut self, range, replace_with)`: delegates directly
to `self.0.splice(range, replace_with)` with no guard of any kind.  Returned
as (removed elements, vector afterwards); `none` is the backing store's
panic. -/
def NonEmptyVec.splice {T : Type} (v : NonEmptyVec T) (range : RangeB)
    (replace_with : List T) : Option (List T × NonEmptyVec T) :=
  match Vec.splice v.data range replace_with with
  | none => none
  | some (removed, rest) => some (removed, ⟨rest⟩)

/-- `<[T]>::repeat(n)` of the backing store: `n` concatenated copies of the
slice. -/
def Slice.repeatN {T : Type} (s : List T) : Nat → List T
  | 0 => []
  | n + 1 => s ++ Slice.repeatN s n

/-- `NonEmptySlice::repeat(&self, n: NonZeroUsize)`: `NonEmptyVec(self.0.repeat(n.get()))`. -/
def NonEmptySlice.repeatN {T : Type} (s : List T) (n : Nat) : NonEmptyVec T :=
  ⟨Slice.repeatN s n⟩

/-- `impl Index<RangeFull> for NonEmptySlice`: `fn index(&self, _) { self }` —
returns the slice itself. -/
def NonEmptySlice.index_range_full {T : Type} (s : List T) : List T :=
  s

/-- `impl Index<RangeToInclusive<usize>> for NonEmptySlice`: `&self.0[..=end]`
wrapped unchecked; the backing slice indexing panics (`none`) when
`end + 1 > len`, otherwise gives the first `end + 1` elements. -/
def NonEmptySlice.index_range_to_inclusive {T : Type} (s : List T) (last : Nat) :
    Option (List T) :=
  if last + 1 ≤ s.length then some (s.take (last + 1)) else none

/-- The backing `Vec<T>` with its capacity made explicit, for the claims that
mention capacity.  `data` is the contents, `cap` the allocated capacity. -/
structure VecC (T : Type) where
  data : List T
  cap : Nat
  deriving Repr, DecidableEq

/-- `Vec::with_capacity(capacity)`: an empty vector whose buffer holds
`capacity` elements. -/
def VecC.with_capacity (T : Type) (capacity : Nat) : VecC T :=
  ⟨[], capacity⟩

/-- `Vec::push` with amortized growth: when the new length exceeds the
capacity the buffer grows to at least the doubled capacity and at least the
new length (Rust guarantees `capacity() >= len` after `push`). -/
def VecC.push {T : Type} (v : VecC T) (value : T) : VecC T :=
  ⟨v.data ++ [value],
    if v.data.length + 1 ≤ v.cap then v.cap
    else max (2 * v.cap) (v.data.length + 1)⟩

/-- `NonEmptyVec::with_capacity(item, capacity)`:
`let mut vec = Vec::with_capacity(capacity); vec.push(item); NonEmptyVec(vec)`,
on the capacity-explicit model of the backing store. -/
def NonEmptyVec.with_capacity {T : Type} (item : T) (capacity : Nat) : VecC T :=
  (VecC.with_capacity T capacity).push item

/-- Allocator state for the claims about pointer identity: a fresh allocation
takes the counter as its address and bumps it. -/
structure Alloc where
  ctr : Nat
  deriving Repr, DecidableEq

/-- The backing `Vec<T>` with its buffer address made explicit, for the
claims about pointer reuse. -/
structure VecP (T : Type) where
  ptr : Nat
  data : List T
  cap : Nat
  deriving Repr, DecidableEq

/-- A `Box<[T]>` (and, transparently, a `Box<NonEmptySlice<T>>`) with its
buffer address made explicit. -/
structure BoxedSlice (T : Type) where
  ptr : Nat
  data : List T
  deriving Repr, DecidableEq

/-- `Vec::into_boxed_slice` of the backing store: when the capacity equals
the length the existing buffer is handed over unchanged; otherwise the
excess capacity is shed by moving the items into a newly allocated buffer
(Rust documents this reallocation in `shrink_to_fit`/`into_boxed_slice`). -/
def VecP.into_boxed_slice {T : Type} (v : VecP T) (a : Alloc) :
    BoxedSlice T × Alloc :=
  if v.cap = v.data.length then (⟨v.ptr, v.data⟩, a)
  else (⟨a.ctr, v.data⟩, ⟨a.ctr + 1⟩)

/-- `NonEmptyVec::into_boxed_slice(self)`: transmutes
`self.0.into_boxed_slice()` into `Box<NonEmptySlice<T>>`; the transmute is
the identity on the model. -/
def NonEmptyVec.into_boxed_slice {T : Type} (v : VecP T) (a : Alloc) :
    BoxedSlice T × Alloc :=
  VecP.into_boxed_slice v a

/-- `NonEmptySlice::into_vec(self: Box<Self>)`:
`Vec::from_raw_parts(self_box.0.as_mut_ptr(), len, len)` — the box's own
pointer with capacity set to the length, no copy, no allocation. -/
def NonEmptySlice.into_vec {T : Type} (b : BoxedSlice T) : VecP T :=
  ⟨b.ptr, b.data, b.data.length⟩

end NEC

/-- C4: for every non-empty ordinary vector, `try_from_vec` succeeds, and
converting the resulting `NonEmptyVec` back into an ordinary vector (the
`From<NonEmptyVec<T>> for Vec<T>` impl) yields the original vector. -/
theorem C4_try_from_vec_roundtrip {T : Type} (l : List T) (h : l ≠ []) :
    ∃ v : NEC.NonEmptyVec T,
      NEC.NonEmptyVec.try_from_vec l = .ok v ∧ v.to_vec = l := by
  refine ⟨⟨l⟩, ?_, rfl⟩
  simp [NEC.NonEmptyVec.try_from_vec, h]

theorem C4_try_from_vec_roundtrip_witness :
    ([3, 1, 4] : List Nat) ≠ [] ∧
      ∃ v : NEC.NonEmptyVec Nat,
        NEC.NonEmptyVec.try_from_vec [3, 1, 4] = .ok v ∧ v.to_vec = [3, 1, 4] :=
  ⟨by decide, C4_try_from_vec_roundtrip [3, 1, 4] (by decide)⟩

/-- C5: on the empty vector `try_from_vec` fails and returns the input itself
unchanged in the error value, and likewise `try_from_slice` on the empty
slice. -/
theorem C5_empty_input_returned (T : Type) :
    NEC.NonEmptyVec.try_from_vec ([] : List T) = .error [] ∧
      NEC.NonEmptySlice.try_from_slice ([] : List T) = .error [] := by
  constructor <;> rfl

/-- C2: on a `NonEmptyVec` of length exactly 1, `try_pop`, `try_remove` and
`try_swap_remove` all return `None` and leave the vector unchanged (and in
particular do not panic). -/
theorem C2_length_one_removals_return_none {T : Type} (v : NEC.NonEmptyVec T)
    (h : v.data.length = 1) (index : Nat) :
    v.try_pop = (none, v) ∧
      v.try_remove index = some (none, v) ∧
      v.try_swap_remove index = some (none, v) := by
  have h1 : NEC.NonEmptySlice.has_just_1_element v.data = true := by
    simp [NEC.NonEmptySlice.has_just_1_element, NEC.NonEmptySlice.get_len, h]
  refine ⟨?_, ?_, ?_⟩
  · simp [NEC.NonEmptyVec.try_pop, h1]
  · simp [NEC.NonEmptyVec.try_remove, h1]
  · simp [NEC.NonEmptyVec.try_swap_remove, h1]

theorem C2_length_one_removals_return_none_witness :
    (NEC.NonEmptyVec.mk [7]).data.length = 1 ∧
      ((NEC.NonEmptyVec.mk ([7] : List Nat)).try_pop = (none, ⟨[7]⟩) ∧
        (NEC.NonEmptyVec.mk ([7] : List Nat)).try_remove 0 = some (none, ⟨[7]⟩) ∧
        (NEC.NonEmptyVec.mk ([7] : List Nat)).try_swap_remove 0 = some (none, ⟨[7]⟩)) :=
  ⟨by decide, C2_length_one_removals_return_none ⟨[7]⟩ (by decide) 0⟩

/-- C10: on a `NonEmptyVec` of length exactly 1, `try_remove` and
`try_swap_remove` return `None` and leave the vector unchanged for every
index, including out-of-bounds indices `index ≥ 1`, without panicking: the
`has_just_1_element` check runs before any bounds check on the index. -/
theorem C10_length_one_out_of_bounds_no_panic {T : Type} (v : NEC.NonEmptyVec T)
    (h : v.data.length = 1) (index : Nat) (_hoob : 1 ≤ index) :
    v.try_remove index = some (none, v) ∧
      v.try_swap_remove index = some (none, v) := by
  have h1 : NEC.NonEmptySlice.has_just_1_element v.data = true := by
    simp [NEC.NonEmptySlice.has_just_1_element, NEC.NonEmptySlice.get_len, h]
  constructor
  · simp [NEC.NonEmptyVec.try_remove, h1]
  · simp [NEC.NonEmptyVec.try_swap_remove, h1]

theorem C10_length_one_out_of_bounds_no_panic_witness :
    ((NEC.NonEmptyVec.mk ([7] : List Nat)).data.length = 1 ∧ 1 ≤ 100) ∧
      ((NEC.NonEmptyVec.mk ([7] : List Nat)).try_remove 100 = some (none, ⟨[7]⟩) ∧
        (NEC.NonEmptyVec.mk ([7] : List Nat)).try_swap_remove 100 = some (none, ⟨[7]⟩)) :=
  ⟨⟨by decide, by decide⟩,
    C10_length_one_out_of_bounds_no_panic ⟨[7]⟩ (by decide) 100 (by decide)⟩

/-- Helper: a successfully resolved range gives indices `s ≤ e ≤ len`, and on
arguments below `len` the `contains` test agrees with the resolved half-open
interval. -/
lemma NEC.RangeB.resolve_spec (r : NEC.RangeB) (len s e : Nat)
    (h : r.resolve len = some (s, e)) :
    s ≤ e ∧ e ≤ len ∧ ∀ x, x < len → (r.containsB x = true ↔ s ≤ x ∧ x < e) := by
  unfold NEC.RangeB.resolve at h
  split at h
  case isFalse => exact absurd h (by simp)
  case isTrue hc =>
    rw [Option.some.injEq, Prod.mk.injEq] at h
    obtain ⟨hs, he⟩ := h
    subst hs; subst he
    refine ⟨hc.1, hc.2, fun x hx => ?_⟩
    rcases r with ⟨lo, hi⟩
    cases lo <;> cases hi <;>
      simp [NEC.RangeB.containsB, NEC.Bound.resolveLo, NEC.Bound.resolveHi] <;>
      omega

/-- C3: `drain` returns `None` and removes nothing whenever the range
contains both index 0 and index `len - 1`; on every proper sub-range (a
valid range not containing both endpoints) it removes exactly the elements
of that sub-range and leaves the elements outside the range, in order, as a
non-empty remainder. -/
theorem C3_drain_full_none_proper_subrange {T : Type} (v : NEC.NonEmptyVec T)
    (range : NEC.RangeB) (s e : Nat) (hne : v.data ≠ []) :
    (range.containsB 0 = true → range.containsB (v.data.length - 1) = true →
      v.drain range = some (none, v)) ∧
    (range.resolve v.data.length = some (s, e) →
      ¬(range.containsB 0 = true ∧ range.containsB (v.data.length - 1) = true) →
      v.drain range =
        some (some ((v.data.drop s).take (e - s)), ⟨v.data.take s ++ v.data.drop e⟩) ∧
      v.data.take s ++ v.data.drop e ≠ []) := by
  have hlen : 0 < v.data.length := List.length_pos.mpr hne
  constructor
  · intro h0 h1
    simp [NEC.NonEmptyVec.drain, h0, h1]
  · intro hres hnf
    obtain ⟨hse, helen, hiff⟩ := NEC.RangeB.resolve_spec range v.data.length s e hres
    have hguard : ¬(range.containsB 0 = true ∧
        range.containsB (v.data.length - 1) = true) := hnf
    have hcase : 1 ≤ s ∨ e < v.data.length := by
      by_contra hcon
      push_neg at hcon
      obtain ⟨hs0, hel⟩ := hcon
      have h0 := (hiff 0 hlen).mpr (by omega)
      have h1 := (hiff (v.data.length - 1) (by omega)).mpr (by omega)
      exact hguard ⟨h0, h1⟩
    constructor
    · have hg : (range.containsB 0 && range.containsB (v.data.length - 1)) = false := by
        by_contra hb
        rw [Bool.not_eq_false, Bool.and_eq_true] at hb
        exact hguard hb
      simp [NEC.NonEmptyVec.drain, hg, NEC.Vec.drain, hres]
    · intro hemp
      have h0 : (v.data.take s ++ v.data.drop e).length = 0 := by rw [hemp]; rfl
      rw [List.length_append, List.length_take, List.length_drop] at h0
      omega

theorem C3_drain_full_none_proper_subrange_witness :
    ((NEC.NonEmptyVec.mk ([1, 2, 3] : List Nat)).data ≠ []) ∧
      (NEC.NonEmptyVec.mk ([1, 2, 3] : List Nat)).drain ⟨.included 1, .excluded 2⟩ =
        some (some [2], ⟨[1, 3]⟩) ∧
      ([1, 2, 3] : List Nat).take 1 ++ ([1, 2, 3] : List Nat).drop 2 ≠ [] := by
  have h := (C3_drain_full_none_proper_subrange ⟨[1, 2, 3]⟩ ⟨.included 1, .excluded 2⟩
    1 2 (by decide)).2 (by decide) (by decide)
  exact ⟨by decide, h.1.trans (by decide), h.2⟩

/-- C1: refuted — `NonEmptyVec::splice` is a safe public operation with no
guard, and splicing the full range with an empty replacement leaves the
vector of `NonEmptyVec::new(10)` empty: the resulting backing length is 0,
not ≥ 1.  Every other potentially-emptying safe mutator is guarded; this one
delegates unchecked. -/
theorem C1_splice_full_range_empties_vector :
    NEC.NonEmptyVec.splice (NEC.NonEmptyVec.new (10 : Nat))
        ⟨.unbounded, .unbounded⟩ [] = some ([10], ⟨[]⟩) ∧
      Option.map (fun r => r.2.data.length)
        (NEC.NonEmptyVec.splice (NEC.NonEmptyVec.new (10 : Nat))
          ⟨.unbounded, .unbounded⟩ []) = some 0 := by
  constructor <;> rfl

/-- Helper: the length of `n` concatenated copies of `s` is `n * s.length`. -/
lemma NEC.Slice.length_repeatN {T : Type} (s : List T) (n : Nat) :
    (NEC.Slice.repeatN s n).length = n * s.length := by
  induction n with
  | zero => simp [NEC.Slice.repeatN]
  | succ n ih =>
    simp [NEC.Slice.repeatN, ih, Nat.succ_mul]
    omega

/-- Helper: `repeatN` is the concatenation of `n` replicated copies. -/
lemma NEC.Slice.repeatN_eq_join {T : Type} (s : List T) (n : Nat) :
    NEC.Slice.repeatN s n = (List.replicate n s).flatten := by
  induction n with
  | zero => rfl
  | succ n ih => simp [NEC.Slice.repeatN, List.replicate_succ, ih]

/-- C6: for a non-empty slice `s` and positive count `n`, `repeat` produces a
`NonEmptyVec` of length `n * s.length` whose elements are `n` concatenated
copies of `s`, and which is indeed non-empty. -/
theorem C6_repeat_concatenated_copies {T : Type} (s : List T) (n : Nat)
    (hs : s ≠ []) (hn : 0 < n) :
    (NEC.NonEmptySlice.repeatN s n).data.length = n * s.length ∧
      (NEC.NonEmptySlice.repeatN s n).data = (List.replicate n s).flatten ∧
      (NEC.NonEmptySlice.repeatN s n).data ≠ [] := by
  refine ⟨NEC.Slice.length_repeatN s n, NEC.Slice.repeatN_eq_join s n, ?_⟩
  intro h
  have h0 : (NEC.Slice.repeatN s n).length = 0 := by
    have hd : (NEC.NonEmptySlice.repeatN s n).data = NEC.Slice.repeatN s n := rfl
    rw [hd] at h
    rw [h]
    rfl
  rw [NEC.Slice.length_repeatN] at h0
  have hsl : 0 < s.length := List.length_pos.mpr hs
  rcases Nat.mul_eq_zero.mp h0 with h1 | h1 <;> omega

theorem C6_repeat_concatenated_copies_witness :
    (([1, 2] : List Nat) ≠ [] ∧ 0 < 3) ∧
      ((NEC.NonEmptySlice.repeatN ([1, 2] : List Nat) 3).data.length = 3 * 2 ∧
        (NEC.NonEmptySlice.repeatN ([1, 2] : List Nat) 3).data =
          (List.replicate 3 [1, 2]).flatten ∧
        (NEC.NonEmptySlice.repeatN ([1, 2] : List Nat) 3).data ≠ []) :=
  ⟨⟨by decide, by decide⟩,
    C6_repeat_concatenated_copies [1, 2] 3 (by decide) (by decide)⟩

/-- C7: `with_capacity(item, capacity)` yields a vector of length exactly 1
holding `item`, with capacity at least `max capacity 1` — the buffer is
reserved for `capacity` elements and the push of the single item grows it to
at least 1 when `capacity = 0`. -/
theorem C7_with_capacity_one_item_min_capacity {T : Type} (item : T)
    (capacity : Nat) :
    (NEC.NonEmptyVec.with_capacity item capacity).data = [item] ∧
      max capacity 1 ≤ (NEC.NonEmptyVec.with_capacity item capacity).cap := by
  refine ⟨rfl, ?_⟩
  unfold NEC.NonEmptyVec.with_capacity NEC.VecC.with_capacity NEC.VecC.push
  simp only [List.length_nil]
  split <;> omega

/-- C8: indexing a `NonEmptySlice` by the whole range returns the slice
itself, and indexing by the inclusive prefix range `..=i` with `i < len`
succeeds and returns the first `i + 1` elements. -/
theorem C8_range_indexing {T : Type} (s : List T) (i : Nat) (h : i < s.length) :
    NEC.NonEmptySlice.index_range_full s = s ∧
      NEC.NonEmptySlice.index_range_to_inclusive s i = some (s.take (i + 1)) ∧
      (s.take (i + 1)).length = i + 1 := by
  refine ⟨rfl, ?_, ?_⟩
  · rw [NEC.NonEmptySlice.index_range_to_inclusive, if_pos (by omega)]
  · rw [List.length_take]
    omega

theorem C8_range_indexing_witness :
    (1 < ([1, 2, 3] : List Nat).length) ∧
      (NEC.NonEmptySlice.index_range_full ([1, 2, 3] : List Nat) = [1, 2, 3] ∧
        NEC.NonEmptySlice.index_range_to_inclusive ([1, 2, 3] : List Nat) 1 =
          some (([1, 2, 3] : List Nat).take 2) ∧
        (([1, 2, 3] : List Nat).take 2).length = 2) :=
  ⟨by decide, C8_range_indexing [1, 2, 3] 1 (by decide)⟩

/-- C9 counterexample: a backing vector with one element and capacity 2 —
obtainable from the public `with_capacity(item, 2)` — does not keep its
pointer across `into_boxed_slice`: shedding the excess capacity moves the
element into a freshly allocated buffer, so the round trip does not reuse
the backing pointer. -/
theorem C9_excess_capacity_reallocates :
    ¬((NEC.NonEmptySlice.into_vec
          ((NEC.NonEmptyVec.into_boxed_slice (⟨0, [5], 2⟩ : NEC.VecP Nat) ⟨1⟩).1)).ptr =
        (⟨0, [5], 2⟩ : NEC.VecP Nat).ptr) := by
  decide

/-- C9 (amended): converting to the boxed form and back always preserves the
element sequence, and whenever the capacity equals the length it reuses the
same backing pointer with no new allocation — `into_vec` itself always
reuses the box's pointer. -/
theorem C9_boxed_roundtrip {T : Type} (v : NEC.VecP T) (a : NEC.Alloc) :
    (NEC.NonEmptySlice.into_vec (NEC.NonEmptyVec.into_boxed_slice v a).1).data =
        v.data ∧
      (v.cap = v.data.length →
        NEC.NonEmptySlice.into_vec (NEC.NonEmptyVec.into_boxed_slice v a).1 = v ∧
          (NEC.NonEmptyVec.into_boxed_slice v a).2 = a) := by
  constructor
  · unfold NEC.NonEmptyVec.into_boxed_slice NEC.VecP.into_boxed_slice
      NEC.NonEmptySlice.into_vec
    split <;> rfl
  · intro h
    unfold NEC.NonEmptyVec.into_boxed_slice NEC.VecP.into_boxed_slice
      NEC.NonEmptySlice.into_vec
    rw [if_pos h]
    exact ⟨by cases v; simp_all, rfl⟩

theorem C9_boxed_roundtrip_witness :
    ((⟨0, [5], 1⟩ : NEC.VecP Nat).cap = (⟨0, [5], 1⟩ : NEC.VecP Nat).data.length) ∧
      ((NEC.NonEmptySlice.into_vec
          (NEC.NonEmptyVec.into_boxed_slice (⟨0, [5], 1⟩ : NEC.VecP Nat) ⟨1⟩).1).data =
        [5] ∧
      NEC.NonEmptySlice.into_vec
          (NEC.NonEmptyVec.into_boxed_slice (⟨0, [5], 1⟩ : NEC.VecP Nat) ⟨1⟩).1 =
        ⟨0, [5], 1⟩ ∧
      (NEC.NonEmptyVec.into_boxed_slice (⟨0, [5], 1⟩ : NEC.VecP Nat) ⟨1⟩).2 = ⟨1⟩) := by
  have h := C9_boxed_roundtrip (⟨0, [5], 1⟩ : NEC.VecP Nat) ⟨1⟩
  exact ⟨by decide, h.1, (h.2 (by decide)).1, (h.2 (by decide)).2⟩
